import Mathlib

/-!
Shallow embedding of the SyntroAuth demo frontend (TypeScript) in Lean 4.

The embedding follows the dynamic (JavaScript) semantics of the source:
JSON values are modelled by an inductive `Json`, JS truthiness by
`jsTruthy`, thrown exceptions by `Option`/`Except`, and the browser /
network environment (fetch, crypto, storage) by explicit environment
records.  Each service function mirrors the control flow of its source
function statement by statement.
-/

namespace Syntro

/-- A JSON value as produced by `JSON.parse`.  A number keeps its source
lexeme; the code under verification only inspects numbers through JS
truthiness, which is determined by the lexeme's digits. -/
inductive Json where
  | null
  | bool (b : Bool)
  | num (lex : String)
  | str (s : String)
  | arr (elems : List Json)
  | obj (fields : List (String × Json))

/-- JS truthiness of a JSON number literal: a JSON number is `0` (falsy)
iff every mantissa digit is `0` (the exponent is irrelevant). -/
def numLexIsZero (lex : String) : Bool :=
  (lex.data.takeWhile (fun c => c ≠ 'e' ∧ c ≠ 'E')).all
    (fun c => c = '0' || c = '-' || c = '.')

/-- JS truthiness of a defined value. -/
def jsTruthy : Json → Bool
  | .null => false
  | .bool b => b
  | .num lex => !numLexIsZero lex
  | .str s => s ≠ ""
  | .arr _ => true
  | .obj _ => true

/-- JS truthiness of a possibly-`undefined` value (`none` = `undefined`). -/
def jsTruthyOpt : Option Json → Bool
  | none => false
  | some v => jsTruthy v

/-- JS property read `v[k]` for the property names used by the code.
On an object the last binding wins (JS assigns left to right, later keys
overwrite earlier ones); every other receiver yields `undefined`
(primitive boxing has none of the accessed properties; the code never
reads numeric indices of arrays).  Reading a property of `null` or
`undefined` throws instead, which callers model separately. -/
def jsGet (v : Json) (k : String) : Option Json :=
  match v with
  | .obj fields => (fields.reverse.find? (fun f => f.1 = k)).map (·.2)
  | _ => none

/-- JS property read `base.k` where `base` itself may be `undefined`
(`none`): throws (`Except.error`) on `undefined` and `null` receivers,
otherwise returns the (possibly `undefined`) property value. -/
def jsGetProp (base : Option Json) (k : String) : Except Unit (Option Json) :=
  match base with
  | none => .error ()
  | some .null => .error ()
  | some v => .ok (jsGet v k)

/-- JS `'k' in base`: throws on a non-object receiver, otherwise tests
key membership (for the string keys used by the code). -/
def jsIn (k : String) (base : Option Json) : Except Unit Bool :=
  match base with
  | some (.obj fields) => .ok (fields.any (fun f => f.1 = k))
  | some (.arr _) => .ok false
  | _ => .error ()

/-- Optional chaining `base?.k`: `undefined` when the receiver is
`undefined` or `null`, otherwise a plain property read. -/
def jsGetOptChain (base : Option Json) (k : String) : Option Json :=
  match base with
  | none => none
  | some .null => none
  | some v => jsGet v k

/-- JS `String.prototype.split` with a single-character separator:
`splitCh c s` never produces the empty list. -/
def splitCh (c : Char) : List Char → List (List Char)
  | [] => [[]]
  | x :: xs =>
    if x = c then [] :: splitCh c xs
    else
      match splitCh c xs with
      | [] => [[x]]
      | h :: t => (x :: h) :: t

/-- `s.split(c)` on strings. -/
def jsSplit (s : String) (c : Char) : List String :=
  (splitCh c s.data).map (fun l => String.mk l)

/-- ASCII lower-casing, the fragment of `String.prototype.toLowerCase`
relevant to comparisons against the ASCII provider names. -/
def jsToLowerChar (c : Char) : Char :=
  if 'A' ≤ c ∧ c ≤ 'Z' then Char.ofNat (c.toNat + 32) else c

/-- `s.toLowerCase()` (ASCII fragment). -/
def jsToLower (s : String) : String :=
  String.mk (s.data.map jsToLowerChar)

/-! ### `atob`: forgiving base64 decoding (WHATWG), as used by the browser -/

/-- ASCII whitespace removed by forgiving-base64 decoding. -/
def isB64Ws (c : Char) : Bool :=
  c = ' ' || c = '\t' || c = '\n' || c = '\r' || c = '\x0c'

/-- Value of a base64 alphabet character, `none` for anything else. -/
def b64Val (c : Char) : Option Nat :=
  if 'A' ≤ c ∧ c ≤ 'Z' then some (c.toNat - 65)
  else if 'a' ≤ c ∧ c ≤ 'z' then some (c.toNat - 97 + 26)
  else if '0' ≤ c ∧ c ≤ '9' then some (c.toNat - 48 + 52)
  else if c = '+' then some 62
  else if c = '/' then some 63
  else none

/-- Map every character to its sextet value, failing on the first
non-alphabet character. -/
def b64Sextets : List Char → Option (List Nat)
  | [] => some []
  | c :: cs =>
    match b64Val c, b64Sextets cs with
    | some v, some vs => some (v :: vs)
    | _, _ => none

/-- Reassemble sextets into bytes; leftover bits of a trailing group of
two or three sextets are discarded (forgiving decode). -/
def sextetsToBytes : List Nat → List Nat
  | a :: b :: c :: d :: rest =>
    (a * 4 + b / 16) :: ((b % 16) * 16 + c / 4) :: ((c % 4) * 64 + d) ::
      sextetsToBytes rest
  | [a, b] => [a * 4 + b / 16]
  | [a, b, c] => [a * 4 + b / 16, (b % 16) * 16 + c / 4]
  | _ => []

/-- Browser `atob` (WHATWG forgiving-base64 decode): strips ASCII
whitespace, strips up to two trailing `=` when the length is a multiple
of four, fails when the remaining length is `1 (mod 4)` or a character
is outside the alphabet, and returns the decoded bytes as a binary
string (one character per byte).  `none` models the thrown
`InvalidCharacterError`. -/
def atob (s : String) : Option String :=
  let cleaned := s.data.filter (fun c => !isB64Ws c)
  let data :=
    if cleaned.length % 4 = 0 then
      (match cleaned.reverse with
       | '=' :: '=' :: t => t.reverse
       | '=' :: t => t.reverse
       | _ => cleaned)
    else cleaned
  if data.length % 4 = 1 then none
  else
    match b64Sextets data with
    | none => none
    | some vs => some (String.mk ((sextetsToBytes vs).map Char.ofNat))

/-! ### `JSON.parse` -/

/-- JSON insignificant whitespace. -/
def isJsonWs (c : Char) : Bool :=
  c = ' ' || c = '\t' || c = '\n' || c = '\r'

/-- Drop leading JSON whitespace. -/
def skipWs (s : List Char) : List Char := s.dropWhile isJsonWs

/-- Hexadecimal digit value. -/
def hexVal (c : Char) : Option Nat :=
  if '0' ≤ c ∧ c ≤ '9' then some (c.toNat - 48)
  else if 'a' ≤ c ∧ c ≤ 'f' then some (c.toNat - 97 + 10)
  else if 'A' ≤ c ∧ c ≤ 'F' then some (c.toNat - 65 + 10)
  else none

/-- Prepend a decoded character to the result of parsing the rest of a
JSON string body. -/
def strCons (ch : Char) : Option (List Char × List Char) →
    Option (List Char × List Char)
  | some (l, r) => some (ch :: l, r)
  | none => none

/-- Single-character JSON string escapes. -/
def jsonEsc (e : Char) : Option Char :=
  match e with
  | '"' => some '"'
  | '\\' => some '\\'
  | '/' => some '/'
  | 'b' => some '\x08'
  | 'f' => some '\x0c'
  | 'n' => some '\n'
  | 'r' => some '\r'
  | 't' => some '\t'
  | _ => none

/-- Parse the characters of a JSON string after the opening quote,
returning the decoded characters and the rest of the input (the fuel,
one unit per consumed character, only makes the recursion structural).
Escapes follow `JSON.parse`; a valid `\uXXXX` surrogate pair yields the
combined code point (a lone surrogate falls back to `Char.ofNat`, since
Lean characters are scalar values). -/
def jsonStrChars : Nat → List Char → Option (List Char × List Char)
  | 0, _ => none
  | _, [] => none
  | _ + 1, '"' :: rest => some ([], rest)
  | fuel + 1, '\\' :: 'u' :: a :: b :: c :: d :: rest =>
    (match hexVal a, hexVal b, hexVal c, hexVal d with
     | some ha, some hb, some hc, some hd =>
       let code := ha * 4096 + hb * 256 + hc * 16 + hd
       if 0xD800 ≤ code ∧ code ≤ 0xDBFF then
         match rest with
         | '\\' :: 'u' :: a2 :: b2 :: c2 :: d2 :: rest2 =>
           (match hexVal a2, hexVal b2, hexVal c2, hexVal d2 with
            | some ha2, some hb2, some hc2, some hd2 =>
              let code2 := ha2 * 4096 + hb2 * 256 + hc2 * 16 + hd2
              if 0xDC00 ≤ code2 ∧ code2 ≤ 0xDFFF then
                strCons
                  (Char.ofNat ((code - 0xD800) * 1024 + (code2 - 0xDC00)
                    + 0x10000))
                  (jsonStrChars fuel rest2)
              else strCons (Char.ofNat code) (jsonStrChars fuel rest)
            | _, _, _, _ => strCons (Char.ofNat code) (jsonStrChars fuel rest))
         | _ => strCons (Char.ofNat code) (jsonStrChars fuel rest)
       else strCons (Char.ofNat code) (jsonStrChars fuel rest)
     | _, _, _, _ => none)
  | fuel + 1, '\\' :: e :: rest =>
    (match jsonEsc e with
     | some ch => strCons ch (jsonStrChars fuel rest)
     | none => none)
  | fuel + 1, c :: rest =>
    if c.toNat < 0x20 then none
    else strCons c (jsonStrChars fuel rest)

/-- Decimal digit test. -/
def isDigitCh (c : Char) : Bool := '0' ≤ c ∧ c ≤ '9'

/-- Parse a JSON number at the head of the input, keeping its lexeme. -/
def jsonNumber (s : List Char) : Option (Json × List Char) :=
  let (neg, s1) : List Char × List Char :=
    match s with
    | '-' :: t => (['-'], t)
    | _ => ([], s)
  match s1 with
  | '0' :: t => jsonNumberFrac (neg ++ ['0']) t
  | c :: _ =>
    if isDigitCh c ∧ c ≠ '0' then
      jsonNumberFrac (neg ++ s1.takeWhile isDigitCh) (s1.dropWhile isDigitCh)
    else none
  | [] => none
where
  /-- Optional fraction then optional exponent. -/
  jsonNumberFrac (acc : List Char) (s : List Char) : Option (Json × List Char) :=
    match s with
    | '.' :: t =>
      let ds := t.takeWhile isDigitCh
      if ds = [] then none
      else jsonNumberExp (acc ++ ['.'] ++ ds) (t.dropWhile isDigitCh)
    | _ => jsonNumberExp acc s
  /-- Optional exponent. -/
  jsonNumberExp (acc : List Char) (s : List Char) : Option (Json × List Char) :=
    match s with
    | e :: t =>
      if e = 'e' ∨ e = 'E' then
        let (sgn, t2) : List Char × List Char :=
          match t with
          | '+' :: u => (['+'], u)
          | '-' :: u => (['-'], u)
          | _ => ([], t)
        let ds := t2.takeWhile isDigitCh
        if ds = [] then none
        else some (.num (String.mk (acc ++ [e] ++ sgn ++ ds)),
          t2.dropWhile isDigitCh)
      else some (.num (String.mk acc), s)
    | [] => some (.num (String.mk acc), [])

/-- Parsing mode: a full value, or the continuation of an array or
object whose first members (reversed) are in the accumulator. -/
inductive PMode where
  | val
  | arrRest (acc : List Json)
  | objRest (acc : List (String × Json))

/-- Fuel-indexed JSON parser core.  Returns the parsed value and the
unconsumed input. -/
def jsonP : Nat → PMode → List Char → Option (Json × List Char)
  | 0, _, _ => none
  | fuel + 1, .val, s =>
    (match skipWs s with
     | 'n' :: 'u' :: 'l' :: 'l' :: rest => some (.null, rest)
     | 't' :: 'r' :: 'u' :: 'e' :: rest => some (.bool true, rest)
     | 'f' :: 'a' :: 'l' :: 's' :: 'e' :: rest => some (.bool false, rest)
     | '"' :: rest =>
       (match jsonStrChars (rest.length + 1) rest with
        | some (l, r) => some (.str (String.mk l), r)
        | none => none)
     | '[' :: rest =>
       (match skipWs rest with
        | ']' :: r => some (.arr [], r)
        | _ =>
          match jsonP fuel .val rest with
          | some (v, r) => jsonP fuel (.arrRest [v]) r
          | none => none)
     | '\x7b' :: rest =>
       (match skipWs rest with
        | '\x7d' :: r => some (.obj [], r)
        | '"' :: r =>
          (match jsonStrChars (r.length + 1) r with
           | some (k, r2) =>
             (match skipWs r2 with
              | ':' :: r3 =>
                (match jsonP fuel .val r3 with
                 | some (v, r4) =>
                   jsonP fuel (.objRest [(String.mk k, v)]) r4
                 | none => none)
              | _ => none)
           | none => none)
        | _ => none)
     | rest => jsonNumber rest)
  | fuel + 1, .arrRest acc, s =>
    (match skipWs s with
     | ']' :: r => some (.arr acc.reverse, r)
     | ',' :: r =>
       (match jsonP fuel .val r with
        | some (v, r2) => jsonP fuel (.arrRest (v :: acc)) r2
        | none => none)
     | _ => none)
  | fuel + 1, .objRest acc, s =>
    (match skipWs s with
     | '\x7d' :: r => some (.obj acc.reverse, r)
     | ',' :: r =>
       (match skipWs r with
        | '"' :: r2 =>
          (match jsonStrChars (r2.length + 1) r2 with
           | some (k, r3) =>
             (match skipWs r3 with
              | ':' :: r4 =>
                (match jsonP fuel .val r4 with
                 | some (v, r5) => jsonP fuel (.objRest ((String.mk k, v) :: acc)) r5
                 | none => none)
              | _ => none)
           | none => none)
        | _ => none)
     | _ => none)

/-- `JSON.parse`: parse one value surrounded by optional whitespace;
`none` models the thrown `SyntaxError`. -/
def jsonParse (s : String) : Option Json :=
  match jsonP (s.data.length + 1) .val s.data with
  | some (v, rest) => if skipWs rest = [] then some v else none
  | none => none

/-! ### `lib/utils/jwt.ts` -/

/-- The Base64URL-to-Base64 character replacement performed by
`decodeJwtPayload`: `payloadBase64.replaceAll('-', '+').replaceAll('_', '/')`
(no padding is added despite the variable name `padded`). -/
def b64urlToB64 (s : String) : String :=
  String.mk (s.data.map (fun c =>
    if c = '-' then '+' else if c = '_' then '/' else c))

/-- `decodeJwtPayload` from `lib/utils/jwt.ts`: split on `.`, require
exactly three parts, Base64URL-decode the middle one, `JSON.parse` it;
every thrown error is caught and turned into `null` (`none`). -/
def decodeJwtPayload (token : String) : Option Json :=
  match jsSplit token '.' with
  | [_, payloadBase64, _] =>
    (match atob (b64urlToB64 payloadBase64) with
     | some payloadJson => jsonParse payloadJson
     | none => none)
  | _ => none

/-! ### `lib/adapters/api.adapter.ts` -/

/-- The domain `AuthSession` built by `apiAdapter.toAuthSession`.
`token`, `userEmail` and `userName` are genuine strings (the code calls
string methods on them before the session is built); `refreshToken`,
`userId` and `userRole` are stored as the raw JSON values the backend
sent. -/
structure AuthSession where
  token : String
  refreshToken : Json
  userId : Json
  userEmail : String
  userName : String
  userRole : Option Json

/-- JS `x || 'default'` for a possibly-`undefined` `x`. -/
def jsOrDefault (v : Option Json) (d : String) : Json :=
  match v with
  | some m => if jsTruthy m then m else .str d
  | none => .str d

/-- `apiAdapter.getErrorMessage`: empty string on a successful response,
otherwise `apiResponse.error?.message || 'Ha ocurrido un error inesperado'`.
Reading `apiResponse.success` on a `null` response (the parsed body of
`"null"`) throws a `TypeError` (`Except.error`); after that first read
succeeds the receiver is known non-null, so `apiResponse.error` cannot
throw (the `?.` guards only the `message` read). -/
def getErrorMessage (apiResponse : Json) : Except Unit Json :=
  match jsGetProp (some apiResponse) "success" with
  | .error _ => .error ()
  | .ok successv =>
    if jsTruthyOpt successv then .ok (.str "")
    else
      .ok (jsOrDefault (jsGetOptChain (jsGet apiResponse "error") "message")
        "Ha ocurrido un error inesperado")

/-- Whether a value is a JS object (JSON objects and arrays both are):
the receivers on which the `in` operator works. -/
def jsObjLike : Option Json → Bool
  | some (.obj _) => true
  | some (.arr _) => true
  | _ => false

/-- `apiAdapter.toAuthSession`.  `Except.error ()` models a `TypeError`
escaping the function — reading `apiResponse.success` on a `null`
response, or `'result' in apiResponse.data` with a non-object `data`:
only the JWT-decoding block is inside a `try`.  `Except.ok none` is the
function returning `null`. -/
def toAuthSession (apiResponse : Json) : Except Unit (Option AuthSession) :=
  match jsGetProp (some apiResponse) "success" with
  | .error _ => .error ()
  | .ok successv =>
  if !jsTruthyOpt successv then .ok none
  else
    match jsIn "result" (jsGet apiResponse "data") with
    | .error _ => .error ()
    | .ok hasResult =>
      if hasResult &&
          (match jsGetOptChain (jsGet apiResponse "data") "result" with
           | some (.str m) => m = "mfa_required"
           | _ => false) then .ok none
      else
        match jsIn "accessToken" (jsGet apiResponse "data") with
        | .error _ => .error ()
        | .ok hasAccessToken =>
          if !hasAccessToken then .ok none
          else
            if !jsTruthyOpt (jsGetOptChain (jsGet apiResponse "data")
                  "accessToken") ||
                !jsTruthyOpt (jsGetOptChain (jsGet apiResponse "data")
                  "refreshToken") then
              .ok none
            else
              -- from here on the source is inside `try { ... } catch { return null }`
              .ok (match jsGetOptChain (jsGet apiResponse "data") "accessToken",
                  jsGetOptChain (jsGet apiResponse "data") "refreshToken" with
                | some (.str tok), some rt =>
                  -- `accessToken.split('.')[1]`; a missing index gives
                  -- `undefined`, and `atob(undefined)` coerces to "undefined"
                  (match atob (((jsSplit tok '.').get? 1).getD "undefined") with
                   | none => none
                   | some payloadJson =>
                     match jsonParse payloadJson with
                     | none => none
                     | some payload =>
                       if !jsTruthyOpt (jsGet payload "sub") ||
                           !jsTruthyOpt (jsGet payload "email") then none
                       else
                         match jsGet payload "sub", jsGet payload "email" with
                         | some subv, some (.str em) =>
                           some { token := tok, refreshToken := rt,
                                  userId := subv, userEmail := em,
                                  userName := (jsSplit em '@').headD "",
                                  userRole := jsGet payload "role" }
                         | _, _ => none)  -- non-string email: `.split` throws
                | _, _ => none)  -- non-string accessToken: `.split` throws

/-! ### Environment: network, crypto and storage

A service call is modelled as a pure function of an `Env` describing
what the outside world would do, and additionally returns the list of
HTTP requests it issued, in order. -/

/-- Default API base URL (`NEXT_PUBLIC_API_URL` unset). -/
def API_URL : String := "https://syntroauth-production.up.railway.app"

/-- An HTTP request issued by `fetch` (method is always POST here). -/
structure SRequest where
  url : String
  body : Option Json

/-- The observable outcome of a completed `fetch`: the `ok` flag and
the result of `response.json()` (`none`: the body is not valid JSON and
`.json()` rejects). -/
structure HttpResponse where
  ok : Bool
  body : Option Json

/-- The outside world.

`encrypt` — modelled from the spec: `encryptPassword` (the client-side
RSA encryption handshake, `lib/utils/crypto.ts`, whose source is not
among the provided files) is an opaque, possibly-throwing (`none`)
function of the environment; the services only await its result.

`fetch` — `none` models a rejected `fetch` (network error). -/
structure Env where
  encrypt : String → Option String
  fetch : SRequest → Option HttpResponse

/-! ### Domain result models (`lib/types/auth.types.ts`), with the
dynamic fields the pages actually read -/

/-- `AuthCredentials`. -/
structure AuthCredentials where
  email : String
  password : String

/-- `RegisterData`. -/
structure RegisterData where
  email : String
  password : String
  name : String

/-- `LoginResult` / `RegisterResult`. -/
structure LoginResult where
  success : Bool
  session : Option AuthSession := none
  error : Option Json := none

/-- `OAuthLoginRequest`. -/
structure OAuthLoginRequest where
  provider : String
  code : String
  redirectUri : String

/-- The dynamic shape of the value `authService.oauthLogin` resolves
with, including the `mfaRequired` / `tempToken` / `message` properties
the OAuth callback page reads from it (the declared TypeScript interface
`OAuthLoginResult` has no such fields; dynamically they are `undefined`,
i.e. `none`, unless some result object carried them). -/
structure OAuthLoginResult where
  success : Bool
  session : Option AuthSession := none
  error : Option Json := none
  mfaRequired : Option Json := none
  tempToken : Option Json := none
  message : Option Json := none

/-- `MfaSetupResult` as built by `mfaService.initiateSetup`. -/
structure MfaSetupResult where
  success : Bool
  secret : Option Json := none
  qrCodeUri : Option Json := none
  manualEntryKey : Option Json := none
  error : Option Json := none

/-- Result of `mfaService.enable`. -/
structure EnableResult where
  success : Bool
  error : Option Json := none

/-! ### `lib/utils/password-validation.ts` -/

/-- `PasswordValidationResult` (simple mode). -/
structure PasswordValidationResult where
  valid : Bool
  errors : List String

/-- The characters `String.prototype.trim` strips: ECMAScript
WhiteSpace (TAB, VT, FF, SP, NBSP, ZWNBSP and the Zs space separators)
plus the LineTerminators (LF, CR, LS, PS). -/
def jsWhitespaceChar (c : Char) : Bool :=
  c.toNat = 0x9 || c.toNat = 0xA || c.toNat = 0xB || c.toNat = 0xC ||
    c.toNat = 0xD || c.toNat = 0x20 || c.toNat = 0xA0 ||
    c.toNat = 0x1680 || (0x2000 ≤ c.toNat ∧ c.toNat ≤ 0x200A) ||
    c.toNat = 0x2028 || c.toNat = 0x2029 || c.toNat = 0x202F ||
    c.toNat = 0x205F || c.toNat = 0x3000 || c.toNat = 0xFEFF

/-- `String.prototype.trim`: strip leading and trailing whitespace. -/
def jsTrim (s : String) : String :=
  String.mk
    (((s.data.dropWhile jsWhitespaceChar).reverse.dropWhile
      jsWhitespaceChar).reverse)

/-- `validatePassword`: only requires the trimmed password to be
non-empty. -/
def validatePassword (password : String) : PasswordValidationResult :=
  if jsTrim password = "" then ⟨false, ["La contraseña no puede estar vacía"]⟩
  else ⟨true, []⟩

/-- The observable outcome of one service call: the value the promise
resolves with, the HTTP requests issued (in order), and whether a JS
exception was thrown during the run and reached the service's catch-all
`catch` handler. -/
structure CallResult (α : Type) where
  result : α
  trace : List SRequest := []
  threw : Bool := false

/-! ### `lib/services/auth.service.ts` -/

namespace authService

/-- The catch-all error of the auth service's `catch` blocks. -/
def connServerError : Json := .str "Error de conexión con el servidor"

/-- The request issued by `authService.login`. -/
def loginRequest (email enc : String) : SRequest :=
  ⟨API_URL ++ "/api/auth/login",
   some (.obj [("email", .str email), ("password", .str enc)])⟩

/-- `authService.login`.  `localStorage` writes of the success path are
not modelled (no claim mentions them). -/
def login (env : Env) (credentials : AuthCredentials) :
    CallResult LoginResult :=
  if credentials.email = "" ∨ credentials.password = "" then
    ⟨⟨false, none, some (.str "Email y contraseña son requeridos")⟩, [], false⟩
  else
    match env.encrypt credentials.password with
    | none => ⟨⟨false, none, some connServerError⟩, [], true⟩
    | some enc =>
      let req := loginRequest credentials.email enc
      match env.fetch req with
      | none => ⟨⟨false, none, some connServerError⟩, [req], true⟩
      | some response =>
        match response.body with
        | none => ⟨⟨false, none, some connServerError⟩, [req], true⟩
        | some apiResponse =>
          if !response.ok then
            match getErrorMessage apiResponse with
            | .error _ => ⟨⟨false, none, some connServerError⟩, [req], true⟩
            | .ok m => ⟨⟨false, none, some m⟩, [req], false⟩
          else
            match toAuthSession apiResponse with
            | .error _ => ⟨⟨false, none, some connServerError⟩, [req], true⟩
            | .ok none =>
              ⟨⟨false, none, some (.str "Respuesta del servidor inválida")⟩,
               [req], false⟩
            | .ok (some session) => ⟨⟨true, some session, none⟩, [req], false⟩

/-- The user-creation request issued by `authService.register`. -/
def registerRequest (email enc : String) : SRequest :=
  ⟨API_URL ++ "/api/users",
   some (.obj [("email", .str email), ("password", .str enc)])⟩

/-- `authService.register`: create the user, then log in automatically
with the same credentials (`threw` also reports a throw caught inside
the nested `login` call). -/
def register (env : Env) (data : RegisterData) : CallResult LoginResult :=
  if data.email = "" ∨ data.password = "" then
    ⟨⟨false, none, some (.str "Email y contraseña son requeridos")⟩, [], false⟩
  else
    let v := validatePassword data.password
    if !v.valid then
      ⟨⟨false, none,
        some (.str ("Contraseña: " ++ String.intercalate ", " v.errors))⟩,
       [], false⟩
    else
      match env.encrypt data.password with
      | none => ⟨⟨false, none, some connServerError⟩, [], true⟩
      | some enc =>
        let req := registerRequest data.email enc
        match env.fetch req with
        | none => ⟨⟨false, none, some connServerError⟩, [req], true⟩
        | some createResponse =>
          match createResponse.body with
          | none => ⟨⟨false, none, some connServerError⟩, [req], true⟩
          | some createResult =>
            if !createResponse.ok then
              -- `createResult.error?.message`: reading `.error` on a
              -- `null` body throws into the catch-all handler
              match jsGetProp (some createResult) "error" with
              | .error _ => ⟨⟨false, none, some connServerError⟩, [req], true⟩
              | .ok errorv =>
                ⟨⟨false, none,
                  some (jsOrDefault (jsGetOptChain errorv "message")
                    "Error al crear usuario")⟩, [req], false⟩
            else
              let r := login env ⟨data.email, data.password⟩
              ⟨r.result, req :: r.trace, r.threw⟩

/-- The request issued by `authService.oauthLogin`. -/
def oauthRequest (provider code redirectUri : String) : SRequest :=
  ⟨API_URL ++ "/api/auth/oauth/login",
   some (.obj [("provider", .str provider), ("code", .str code),
     ("redirectUri", .str redirectUri)])⟩

/-- `authService.oauthLogin`.  Every result it resolves with leaves
`mfaRequired`, `tempToken` and `message` at `none`: none of the object
literals in the source carries those properties. -/
def oauthLogin (env : Env) (request : OAuthLoginRequest) :
    CallResult OAuthLoginResult :=
  if request.provider = "" ∨ request.code = "" ∨ request.redirectUri = "" then
    ⟨⟨false, none, some (.str "Provider, code y redirectUri son requeridos"),
      none, none, none⟩, [], false⟩
  else
    let req := oauthRequest request.provider request.code request.redirectUri
    match env.fetch req with
    | none => ⟨⟨false, none, some connServerError, none, none, none⟩,
        [req], true⟩
    | some response =>
      match response.body with
      | none => ⟨⟨false, none, some connServerError, none, none, none⟩,
          [req], true⟩
      | some apiResponse =>
        if !response.ok then
          match getErrorMessage apiResponse with
          | .error _ =>
            ⟨⟨false, none, some connServerError, none, none, none⟩,
             [req], true⟩
          | .ok m =>
            ⟨⟨false, none, some m, none, none, none⟩, [req], false⟩
        else
          match toAuthSession apiResponse with
          | .error _ =>
            ⟨⟨false, none, some connServerError, none, none, none⟩,
             [req], true⟩
          | .ok none =>
            ⟨⟨false, none, some (.str "Respuesta del servidor inválida"),
              none, none, none⟩, [req], false⟩
          | .ok (some session) =>
            ⟨⟨true, some session, none, none, none, none⟩, [req], false⟩

/-- `localStorage.removeItem` on a functional model of the store. -/
def removeItem (key : String) (store : String → Option String) :
    String → Option String :=
  fun k => if k = key then none else store k

/-- `authService.logout`: remove `auth_token`, then `refresh_token`. -/
def logout (store : String → Option String) : String → Option String :=
  removeItem "refresh_token" (removeItem "auth_token" store)

end authService

/-! ### `lib/services/mfa.service.ts` -/

namespace mfaService

/-- The catch-all error of the MFA service's `catch` blocks. -/
def connError : Json := .str "Error de conexión"

/-- The request issued by `mfaService.initiateSetup` (the optional
bearer token only affects headers, which no claim mentions). -/
def setupRequest : SRequest := ⟨API_URL ++ "/api/auth/mfa/setup", none⟩

/-- `mfaService.initiateSetup`. -/
def initiateSetup (env : Env) : CallResult MfaSetupResult :=
  let req := setupRequest
  match env.fetch req with
  | none => ⟨⟨false, none, none, none, some connError⟩, [req], true⟩
  | some response =>
    match response.body with
    | none => ⟨⟨false, none, none, none, some connError⟩, [req], true⟩
    | some apiResponse =>
      -- `!response.ok || !apiResponse.success` short-circuits: the
      -- `success` read (a TypeError on a null body) is skipped when
      -- `ok` is already false; `getErrorMessage` performs the same
      -- read and can throw into the catch-all handler itself
      if !response.ok then
        match getErrorMessage apiResponse with
        | .error _ => ⟨⟨false, none, none, none, some connError⟩, [req], true⟩
        | .ok m =>
          ⟨⟨false, none, none, none,
            some (if jsTruthy m then m
              else .str "Error al iniciar setup MFA")⟩, [req], false⟩
      else
        match jsGetProp (some apiResponse) "success" with
        | .error _ => ⟨⟨false, none, none, none, some connError⟩, [req], true⟩
        | .ok successv =>
          if !jsTruthyOpt successv then
            match getErrorMessage apiResponse with
            | .error _ =>
              ⟨⟨false, none, none, none, some connError⟩, [req], true⟩
            | .ok m =>
              ⟨⟨false, none, none, none,
                some (if jsTruthy m then m
                  else .str "Error al iniciar setup MFA")⟩, [req], false⟩
          else
            -- `apiResponse.data.secret` can throw when `data` is absent/null
            match jsGetProp (jsGet apiResponse "data") "secret" with
            | .error _ =>
              ⟨⟨false, none, none, none, some connError⟩, [req], true⟩
            | .ok secretv =>
              ⟨⟨true, secretv,
                jsGetOptChain (jsGet apiResponse "data") "qrCodeUri",
                jsGetOptChain (jsGet apiResponse "data") "manualEntryKey",
                none⟩, [req], false⟩

/-- The request issued by `mfaService.enable`. -/
def enableRequest (code password : String) : SRequest :=
  ⟨API_URL ++ "/api/auth/mfa/enable",
   some (.obj [("code", .str code), ("password", .str password)])⟩

/-- `mfaService.enable`.  A `response.json()` rejection is swallowed
locally by `.catch(() => ({}))`, so it does not count as `threw` — but
a body that parses to `null` is not a rejection, and reading
`errorData.error` on it throws into the catch-all handler. -/
def enable (env : Env) (code password : String) : CallResult EnableResult :=
  let req := enableRequest code password
  match env.fetch req with
  | none => ⟨⟨false, some connError⟩, [req], true⟩
  | some response =>
    if !response.ok then
      -- `await response.json().catch(() => ({}))`
      match jsGetProp (some (response.body.getD (.obj []))) "error" with
      | .error _ => ⟨⟨false, some connError⟩, [req], true⟩
      | .ok errorv =>
        ⟨⟨false, some (jsOrDefault (jsGetOptChain errorv "message")
          "Error al habilitar MFA")⟩, [req], false⟩
    else ⟨⟨true, none⟩, [req], false⟩

/-- The request issued by `mfaService.verifyLogin`. -/
def verifyRequest (tempToken code : String) : SRequest :=
  ⟨API_URL ++ "/api/auth/login/2fa",
   some (.obj [("tempToken", .str tempToken), ("code", .str code)])⟩

/-- `mfaService.verifyLogin`. -/
def verifyLogin (env : Env) (tempToken code : String) :
    CallResult LoginResult :=
  let req := verifyRequest tempToken code
  match env.fetch req with
  | none => ⟨⟨false, none, some connError⟩, [req], true⟩
  | some response =>
    match response.body with
    | none => ⟨⟨false, none, some connError⟩, [req], true⟩
    | some apiResponse =>
      if !response.ok then
        match getErrorMessage apiResponse with
        | .error _ => ⟨⟨false, none, some connError⟩, [req], true⟩
        | .ok m => ⟨⟨false, none, some m⟩, [req], false⟩
      else
        match toAuthSession apiResponse with
        | .error _ => ⟨⟨false, none, some connError⟩, [req], true⟩
        | .ok none =>
          ⟨⟨false, none,
            some (.str "Sesión inválida recibida del servidor")⟩, [req],
           false⟩
        | .ok (some session) => ⟨⟨true, some session, none⟩, [req], false⟩

end mfaService

/-! ### `lib/utils/oauth.ts` -/

/-- UTF-8 encoding of a scalar value, as a list of bytes. -/
def utf8Bytes (c : Char) : List Nat :=
  if c.toNat < 0x80 then [c.toNat]
  else if c.toNat < 0x800 then [0xC0 + c.toNat / 64, 0x80 + c.toNat % 64]
  else if c.toNat < 0x10000 then
    [0xE0 + c.toNat / 4096, 0x80 + c.toNat / 64 % 64, 0x80 + c.toNat % 64]
  else
    [0xF0 + c.toNat / 262144, 0x80 + c.toNat / 4096 % 64,
     0x80 + c.toNat / 64 % 64, 0x80 + c.toNat % 64]

/-- Bytes left unescaped by `encodeURIComponent`:
`A-Z a-z 0-9 - _ . ! ~ * ' ( )`. -/
def uriUnreserved (b : Nat) : Bool :=
  (65 ≤ b ∧ b ≤ 90) || (97 ≤ b ∧ b ≤ 122) || (48 ≤ b ∧ b ≤ 57) ||
    b = 45 || b = 95 || b = 46 || b = 33 || b = 126 || b = 42 ||
    b = 39 || b = 40 || b = 41

/-- Uppercase hexadecimal digit. -/
def hexUpper (n : Nat) : Char :=
  if n < 10 then Char.ofNat (48 + n) else Char.ofNat (55 + n)

/-- Percent-escape one byte (or keep it, when unreserved). -/
def encByte (b : Nat) : List Char :=
  if uriUnreserved b then [Char.ofNat b]
  else ['%', hexUpper (b / 16), hexUpper (b % 16)]

/-- `encodeURIComponent`. -/
def encodeURIComponent (s : String) : String :=
  String.mk ((s.data.flatMap utf8Bytes).flatMap encByte)

/-- The Google authorization URL template of `buildOAuthUrl`
(`urlBuilders.google`), over already-encoded components. -/
def googleAuthUrl (clientId redirectUri state : String) : String :=
  "https://accounts.google.com/o/oauth2/v2/auth?" ++
    "client_id=" ++ clientId ++ "&" ++
    "redirect_uri=" ++ redirectUri ++ "&" ++
    "response_type=code&" ++
    "scope=openid email profile&" ++
    "state=" ++ state ++ "&" ++
    "access_type=offline&" ++
    "prompt=consent"

/-- `buildOAuthUrl`: guard on empty parameters, normalise the provider
to lower case, default the state to the normalised provider, and look
the provider up in `urlBuilders` (which only has a `google` entry).
`Except.error` models the thrown `Error` with its message. -/
def buildOAuthUrl (provider clientId redirectUri : String)
    (state : Option String) : Except String String :=
  if provider = "" ∨ clientId = "" ∨ redirectUri = "" then
    .error "Provider, clientId y redirectUri son requeridos"
  else if jsToLower provider = "google" then
    .ok (googleAuthUrl (encodeURIComponent clientId)
      (encodeURIComponent redirectUri)
      (match state with
       | some st =>
         if st ≠ "" then encodeURIComponent st
         else encodeURIComponent (jsToLower provider)
       | none => encodeURIComponent (jsToLower provider)))
  else .error ("Proveedor OAuth no soportado: " ++ provider)

/-! #### Reading a query parameter back, as `URLSearchParams` would -/

/-- The suffix after the first occurrence of `c`, if any. -/
def afterFirst (c : Char) : List Char → Option (List Char)
  | [] => none
  | x :: xs => if x = c then some xs else afterFirst c xs

/-- Split at the first occurrence of `c`: the prefix, and the suffix
when `c` occurs. -/
def breakAtFirst (c : Char) : List Char → List Char × Option (List Char)
  | [] => ([], none)
  | x :: xs =>
    if x = c then ([], some xs)
    else
      match breakAtFirst c xs with
      | (pre, post) => (x :: pre, post)

/-- Percent-decode `application/x-www-form-urlencoded` text into bytes:
`+` is a space, `%HH` is a byte, a malformed `%` is literal. -/
def percentDecodeBytes : List Char → List Nat
  | [] => []
  | '%' :: a :: b :: rest =>
    (match hexVal a, hexVal b with
     | some ha, some hb => (ha * 16 + hb) :: percentDecodeBytes rest
     | _, _ => utf8Bytes '%' ++ percentDecodeBytes (a :: b :: rest))
  | '+' :: rest => 32 :: percentDecodeBytes rest
  | c :: rest => utf8Bytes c ++ percentDecodeBytes rest

/-- UTF-8 decoding with U+FFFD for malformed sequences (the fuel, one
unit per consumed byte, only makes the recursion structural). -/
def utf8DecodeAux : Nat → List Nat → List Char
  | 0, _ => []
  | _, [] => []
  | fuel + 1, b :: rest =>
    if b < 0x80 then Char.ofNat b :: utf8DecodeAux fuel rest
    else if 0xC2 ≤ b ∧ b ≤ 0xDF then
      match rest with
      | b2 :: rest2 =>
        if 0x80 ≤ b2 ∧ b2 ≤ 0xBF then
          Char.ofNat ((b - 0xC0) * 64 + (b2 - 0x80)) :: utf8DecodeAux fuel rest2
        else Char.ofNat 0xFFFD :: utf8DecodeAux fuel rest
      | [] => [Char.ofNat 0xFFFD]
    else if 0xE0 ≤ b ∧ b ≤ 0xEF then
      match rest with
      | b2 :: b3 :: rest3 =>
        if (0x80 ≤ b2 ∧ b2 ≤ 0xBF) ∧ (0x80 ≤ b3 ∧ b3 ≤ 0xBF) then
          let code := (b - 0xE0) * 4096 + (b2 - 0x80) * 64 + (b3 - 0x80)
          (if 0xD800 ≤ code ∧ code ≤ 0xDFFF then Char.ofNat 0xFFFD
           else if code < 0x800 then Char.ofNat 0xFFFD
           else Char.ofNat code) :: utf8DecodeAux fuel rest3
        else Char.ofNat 0xFFFD :: utf8DecodeAux fuel rest
      | _ => [Char.ofNat 0xFFFD]
    else if 0xF0 ≤ b ∧ b ≤ 0xF4 then
      match rest with
      | b2 :: b3 :: b4 :: rest4 =>
        if (0x80 ≤ b2 ∧ b2 ≤ 0xBF) ∧ (0x80 ≤ b3 ∧ b3 ≤ 0xBF) ∧
            (0x80 ≤ b4 ∧ b4 ≤ 0xBF) then
          let code := (b - 0xF0) * 262144 + (b2 - 0x80) * 4096 +
            (b3 - 0x80) * 64 + (b4 - 0x80)
          (if code < 0x10000 ∨ 0x10FFFF < code then Char.ofNat 0xFFFD
           else Char.ofNat code) :: utf8DecodeAux fuel rest4
        else Char.ofNat 0xFFFD :: utf8DecodeAux fuel rest
      | _ => [Char.ofNat 0xFFFD]
    else Char.ofNat 0xFFFD :: utf8DecodeAux fuel rest

/-- UTF-8 decoding of a byte list. -/
def utf8Decode (bs : List Nat) : List Char := utf8DecodeAux (bs.length + 1) bs

/-- Decode a form-urlencoded component. -/
def formUrlDecode (s : String) : String :=
  String.mk (utf8Decode (percentDecodeBytes s.data))

/-- The key/value pairs `URLSearchParams` would read from a URL's query
(everything after the first `?`). -/
def queryPairs (url : String) : List (String × String) :=
  match afterFirst '?' url.data with
  | none => []
  | some q =>
    ((splitCh '&' q).filter (· ≠ [])).map (fun seg =>
      match breakAtFirst '=' seg with
      | (k, some v) => (formUrlDecode (String.mk k), formUrlDecode (String.mk v))
      | (k, none) => (formUrlDecode (String.mk k), ""))

/-- `URLSearchParams.get`: the first value bound to the key. -/
def getQueryParam (url : String) (key : String) : Option String :=
  ((queryPairs url).find? (fun p => p.1 = key)).map (·.2)

/-- `OAuthCallbackParams` as produced by `parseOAuthCallback`. -/
structure OAuthCallbackParams where
  code : Option String
  error : Option String
  state : Option String

/-- `parseOAuthCallback` over any `get`-like source of query
parameters. -/
def parseOAuthCallback (get : String → Option String) : OAuthCallbackParams :=
  ⟨get "code", get "error", get "state"⟩

/-- JS truthiness of `string | null | undefined`. -/
def jsTruthyStr : Option String → Bool
  | none => false
  | some s => s ≠ ""

/-- Result shape of `validateOAuthCallback`. -/
structure CallbackValidation where
  valid : Bool
  error : Option String := none

/-- `validateOAuthCallback`. -/
def validateOAuthCallback (params : OAuthCallbackParams) : CallbackValidation :=
  match params.error with
  | some e =>
    if e ≠ "" then ⟨false, some ("Error de autenticación: " ++ e)⟩
    else
      if jsTruthyStr params.code then ⟨true, none⟩
      else ⟨false, some "No se recibió código de autorización"⟩
  | none =>
    if jsTruthyStr params.code then ⟨true, none⟩
    else ⟨false, some "No se recibió código de autorización"⟩

/-! ### `app/auth/callback/page.tsx` (`OAuthCallbackPage`) -/

/-- The three values of the page's `status` React state. -/
inductive CallbackStatus where
  | loading
  | success
  | error
deriving DecidableEq, Repr

/-- The inputs of one run of the callback page's `handleCallback`
effect: the URL query, the saved redirect URI in `sessionStorage`, the
value `getRedirectUri()` would return, and the network/crypto
environment used by `authService.oauthLogin`. -/
structure CallbackEnv where
  query : String → Option String
  sessionOauthRedirectUri : Option String
  configRedirectUri : String
  net : Env

/-- The observable outcome of one run of `handleCallback`: the
successive values passed to `setStatus` (in order), the last `setError`
argument, the value written to `sessionStorage['mfa_temp_token']` (if
any), whether `oauth_redirect_uri` was removed, the target of the
`window.location.href` assignment (if any), and the HTTP requests
issued. -/
structure CallbackOutcome where
  statusSets : List CallbackStatus := []
  errorMsg : Option Json := none
  storedTempToken : Option Json := none
  removedOauthRedirectUri : Bool := false
  redirect : Option String := none
  trace : List SRequest := []

/-- JS `s || 'default'` for `string | undefined`. -/
def strOrDefault (v : Option String) (d : String) : String :=
  match v with
  | some s => if s ≠ "" then s else d
  | none => d

/-- One run of the callback page's `handleCallback` (client side,
`window` defined). -/
def oauthCallbackRun (cenv : CallbackEnv) : CallbackOutcome :=
  let params := parseOAuthCallback cenv.query
  let validation := validateOAuthCallback params
  if !validation.valid then
    { statusSets := [.error],
      errorMsg := some (.str (strOrDefault validation.error
        "Error desconocido")) }
  else
    match params.code with
    | none =>
      { statusSets := [.error],
        errorMsg := some (.str "No se recibió código de autorización") }
    | some code =>
      if code = "" then
        { statusSets := [.error],
          errorMsg := some (.str "No se recibió código de autorización") }
      else
        let provider := strOrDefault params.state "google"
        let savedRedirectUri := cenv.sessionOauthRedirectUri
        let redirectUri :=
          strOrDefault savedRedirectUri cenv.configRedirectUri
        let removed := jsTruthyStr savedRedirectUri
        let r := authService.oauthLogin cenv.net ⟨provider, code, redirectUri⟩
        let result := r.result
        if !result.success then
          { statusSets := [.error],
            errorMsg := some (jsOrDefault result.error
              "Error al autenticar con OAuth"),
            removedOauthRedirectUri := removed, trace := r.trace }
        else if jsTruthyOpt result.mfaRequired && jsTruthyOpt result.tempToken
        then
          let isSetup : Bool :=
            match result.message with
            | some (.str m) => m = "SETUP_REQUIRED"
            | _ => false
          { storedTempToken := result.tempToken,
            removedOauthRedirectUri := removed,
            redirect := some (if isSetup then "/mfa/setup" else "/login/2fa"),
            trace := r.trace }
        else
          { statusSets := [.success], redirect := some "/dashboard",
            removedOauthRedirectUri := removed, trace := r.trace }

/-! ### Concrete instances used to exercise the theorems -/

/-- A JWT whose payload is `("sub": "u1", "email": "ana@bank.com")`. -/
def sampleJwt : String :=
  "hdr.eyJzdWIiOiJ1MSIsImVtYWlsIjoiYW5hQGJhbmsuY29tIn0.sig"

/-- A successful login API response carrying `sampleJwt`. -/
def sampleLoginResponse : Json :=
  .obj [("success", .bool true), ("statusCode", .num "200"),
    ("data", .obj [("accessToken", .str sampleJwt),
      ("refreshToken", .str "r1"),
      ("accessTokenExpiresAt", .str "2026-01-01T00:00:00Z"),
      ("tokenType", .str "Bearer")])]

/-- The session `toAuthSession` builds from `sampleLoginResponse`. -/
def sampleSession : AuthSession :=
  ⟨sampleJwt, .str "r1", .str "u1", "ana@bank.com", "ana", none⟩

/-- An environment whose `fetch` always rejects (network down). -/
def envNetworkDown : Env :=
  ⟨fun p => some ("rsa:" ++ p), fun _ => none⟩

/-- An environment whose `fetch` always yields an HTTP 200 whose JSON
body is an empty object. -/
def envEmptyObjOk : Env :=
  ⟨fun p => some ("rsa:" ++ p), fun _ => some ⟨true, some (.obj [])⟩⟩

/-- An environment whose `fetch` always yields an HTTP error response
whose JSON body is the literal `null` — property reads on it throw. -/
def envNullBodyErr : Env :=
  ⟨fun p => some ("rsa:" ++ p), fun _ => some ⟨false, some .null⟩⟩

/-- The `mfa_required` response of the backend to an OAuth code
exchange, as described by the API contract read by the callback page. -/
def mfaRequiredResponse : Json :=
  .obj [("success", .bool true), ("statusCode", .num "200"),
    ("data", .obj [("result", .str "mfa_required"),
      ("tempToken", .str "T-123"), ("message", .str "SETUP_REQUIRED")])]

/-- A callback-page environment: a valid `code` and `state` in the URL,
and a backend that answers the code exchange with `mfaRequiredResponse`. -/
def mfaCallbackEnv : CallbackEnv where
  query := fun k =>
    if k = "code" then some "authcode-1"
    else if k = "state" then some "google" else none
  sessionOauthRedirectUri := none
  configRedirectUri := "https://app.example/auth/callback"
  net := ⟨fun p => some ("rsa:" ++ p),
    fun _ => some ⟨true, some mfaRequiredResponse⟩⟩

end Syntro

-- sanity checks that the embedding reduces in the kernel
example : Syntro.jsSplit "a.b.c" '.' = ["a", "b", "c"] := by decide
example : Syntro.jsSplit "" '.' = [""] := by decide
example : Syntro.jsSplit "a@b@c" '@' = ["a", "b", "c"] := by decide
example : Syntro.jsToLower "GooGle" = "google" := by decide
example : Syntro.jsTruthy (Syntro.Json.num "-0.00e7") = false := by decide
example : Syntro.jsGet (Syntro.Json.obj [("a", .null), ("a", .bool true)]) "a"
    = some (Syntro.Json.bool true) := rfl
example : Syntro.atob "QQ==" = some "A" := rfl
example : Syntro.atob "W10" = some "[]" := rfl
example : Syntro.atob "QQ=" = none := rfl
example : Syntro.atob "e30" = some "\x7b\x7d" := rfl
example : Syntro.jsonParse " [1, -2.5e3] " =
    some (.arr [.num "1", .num "-2.5e3"]) := rfl
example : Syntro.jsonParse "\x7b\"a\": true, \"b\": \"x\"\x7d" =
    some (.obj [("a", .bool true), ("b", .str "x")]) := rfl
example : Syntro.jsonParse "00" = none := rfl
example : Syntro.jsonParse "\"a\\u0041b\"" = some (.str "aAb") := rfl
example : Syntro.jsonParse "" = none := rfl
example : Syntro.decodeJwtPayload
    "hdr.eyJzdWIiOiJ1MSIsImVtYWlsIjoiYW5hQGJhbmsuY29tIn0.sig" =
    some (.obj [("sub", .str "u1"), ("email", .str "ana@bank.com")]) := rfl
example : Syntro.decodeJwtPayload "nodots" = none := rfl
example : Syntro.toAuthSession (.obj [("success", .bool true),
    ("data", .obj [
      ("accessToken",
        .str "hdr.eyJzdWIiOiJ1MSIsImVtYWlsIjoiYW5hQGJhbmsuY29tIn0.sig"),
      ("refreshToken", .str "r1")])]) =
    .ok (some ⟨"hdr.eyJzdWIiOiJ1MSIsImVtYWlsIjoiYW5hQGJhbmsuY29tIn0.sig",
      .str "r1", .str "u1", "ana@bank.com", "ana", none⟩) := rfl
example : Syntro.toAuthSession (.obj [("success", .bool true),
    ("data", .obj [("result", .str "mfa_required"), ("tempToken", .str "T")])]) =
    .ok none := rfl
example : Syntro.toAuthSession (.obj [("success", .bool true)]) =
    .error () := rfl
example : Syntro.toAuthSession (.obj [("success", .bool false),
    ("error", .obj [("code", .str "X"), ("message", .str "bad")])]) =
    .ok none := rfl
example : Syntro.toAuthSession .null = .error () := rfl
example : Syntro.getErrorMessage .null = .error () := rfl
example : Syntro.getErrorMessage (.obj [("success", .bool false)]) =
    .ok (.str "Ha ocurrido un error inesperado") := rfl
example :
    (Syntro.authService.login Syntro.envNullBodyErr ⟨"a@b.c", "pw"⟩).threw =
    true := rfl
example :
    (Syntro.authService.login Syntro.envNullBodyErr
      ⟨"a@b.c", "pw"⟩).result.error =
    some Syntro.authService.connServerError := rfl
example :
    (Syntro.mfaService.enable Syntro.envNullBodyErr "123456" "pw").threw =
    true := rfl
example :
    (Syntro.mfaService.enable Syntro.envNullBodyErr "123456" "pw").result.error
    = some Syntro.mfaService.connError := rfl
example :
    (Syntro.mfaService.initiateSetup Syntro.envNullBodyErr).threw = true := rfl
example : Syntro.buildOAuthUrl "apple" "cid" "https://r" none =
    .error "Proveedor OAuth no soportado: apple" := rfl
example : Syntro.buildOAuthUrl "Google" "" "https://r" none =
    .error "Provider, clientId y redirectUri son requeridos" := rfl
example : Syntro.getQueryParam
    (Syntro.googleAuthUrl "cid" "https%3A%2F%2Fr" "google") "state" =
    some "google" := rfl
example : Syntro.encodeURIComponent "https://r/a?b=c&d" =
    "https%3A%2F%2Fr%2Fa%3Fb%3Dc%26d" := rfl
example : Syntro.formUrlDecode "a+b%C3%A1" = "a bá" := rfl

/-! ## Claims -/

namespace Syntro

/-- C2: `decodeJwtPayload` decodes only the payload segment of a JWT and
performs no signature verification: for every two token strings that
each split into exactly three dot-separated parts and share the same
middle (payload) segment, it returns the same result, whatever their
header and signature segments are. -/
theorem claim_C2_payload_only (t₁ t₂ a b c a' c' : String)
    (h₁ : jsSplit t₁ '.' = [a, b, c])
    (h₂ : jsSplit t₂ '.' = [a', b, c']) :
    decodeJwtPayload t₁ = decodeJwtPayload t₂ := by
  unfold decodeJwtPayload
  rw [h₁, h₂]

/-- Witness for C2 on two concrete tokens with equal payload segments
and different header/signature segments. -/
theorem claim_C2_payload_only_witness :
    jsSplit "hdrA.W10.sigA" '.' = ["hdrA", "W10", "sigA"] ∧
    jsSplit "hdrB.W10.sigB" '.' = ["hdrB", "W10", "sigB"] ∧
    decodeJwtPayload "hdrA.W10.sigA" = decodeJwtPayload "hdrB.W10.sigB" :=
  ⟨rfl, rfl,
   claim_C2_payload_only "hdrA.W10.sigA" "hdrB.W10.sigB"
     "hdrA" "W10" "sigA" "hdrB" "sigB" rfl rfl⟩

/-- C9: `decodeJwtPayload` is total and never throws: on every input it
returns either a parsed payload or `null`, and it returns `null`
whenever the token does not split into exactly three dot-separated
parts, or the middle segment is not valid Base64URL (`atob` throws after
the `-`/`_` replacement), or the decoded segment is not valid JSON. -/
theorem claim_C9_decode_total (token : String) :
    (decodeJwtPayload token = none ∨ ∃ p, decodeJwtPayload token = some p) ∧
    ((jsSplit token '.').length ≠ 3 → decodeJwtPayload token = none) ∧
    (∀ a b c, jsSplit token '.' = [a, b, c] →
      atob (b64urlToB64 b) = none → decodeJwtPayload token = none) ∧
    (∀ a b c s, jsSplit token '.' = [a, b, c] →
      atob (b64urlToB64 b) = some s → jsonParse s = none →
      decodeJwtPayload token = none) := by
  refine ⟨?_, ?_, ?_, ?_⟩
  · cases h : decodeJwtPayload token with
    | none => exact Or.inl rfl
    | some p => exact Or.inr ⟨p, rfl⟩
  · intro hlen
    unfold decodeJwtPayload
    rcases hsp : jsSplit token '.' with _ | ⟨x, _ | ⟨y, _ | ⟨z, _ | ⟨w, l⟩⟩⟩⟩
    · rfl
    · rfl
    · rfl
    · exact absurd (by rw [hsp]; rfl) hlen
    · rfl
  · intro a b c hsp hb
    unfold decodeJwtPayload
    rw [hsp]
    simp [hb]
  · intro a b c s hsp hb hp
    unfold decodeJwtPayload
    rw [hsp]
    simp [hb, hp]

/-- Witness for C9 on a token whose middle segment is not valid
Base64URL. -/
theorem claim_C9_decode_total_witness :
    atob (b64urlToB64 "!!") = none ∧
    decodeJwtPayload "h.!!.s" = none :=
  ⟨rfl, (claim_C9_decode_total "h.!!.s").2.2.1 "h" "!!" "s" rfl rfl⟩

/-- The `in` operator throws exactly on non-object receivers. -/
theorem jsIn_error_iff (k : String) (d : Option Json) :
    jsIn k d = .error () ↔ jsObjLike d = false := by
  cases d with
  | none => simp [jsIn, jsObjLike]
  | some v => cases v <;> simp [jsIn, jsObjLike]

/-- A successful optional-chained read implies the `in` operator finds
the key. -/
theorem jsIn_ok_true_of_optChain (d : Option Json) (k : String) (u : Json)
    (h : jsGetOptChain d k = some u) : jsIn k d = .ok true := by
  cases d with
  | none => simp [jsGetOptChain] at h
  | some v =>
    cases v with
    | obj fields =>
      simp only [jsGetOptChain, jsGet] at h
      rw [Option.map_eq_some'] at h
      obtain ⟨p, hp, hpu⟩ := h
      have hmem : p ∈ fields := List.mem_reverse.mp (List.mem_of_find?_eq_some hp)
      have hkey : p.1 = k := by
        have := List.find?_some hp
        simpa using this
      simp only [jsIn, Except.ok.injEq]
      exact List.any_eq_true.mpr ⟨p, hmem, by simp [hkey]⟩
    | null => simp [jsGetOptChain] at h
    | bool b => simp [jsGetOptChain, jsGet] at h
    | num lex => simp [jsGetOptChain, jsGet] at h
    | str t => simp [jsGetOptChain, jsGet] at h
    | arr es => simp [jsGetOptChain, jsGet] at h

/-- C10, counterexample to the claim as stated: on a response with a
truthy `success` but a non-object `data`, `apiAdapter.toAuthSession`
does not return `null` — the `TypeError` thrown by
`'result' in apiResponse.data` escapes to the caller. -/
theorem claim_C10_counterexample :
    toAuthSession (.obj [("success", .bool true), ("statusCode", .num "200"),
        ("data", .str "tokens")]) = .error () ∧
    (Except.error () : Except Unit (Option AuthSession)) ≠ .ok none :=
  ⟨rfl, fun hc => Except.noConfusion hc⟩

/-- On a non-`null` receiver, the checked property read returns the
plain read. -/
theorem jsGetProp_some_ok (r : Json) (k : String) (v : Option Json)
    (h : jsGetProp (some r) k = .ok v) : v = jsGet r k ∧ r ≠ .null := by
  cases r <;> simp [jsGetProp] at h <;> simp [h.symm]

/-- The checked property read throws exactly on the `null` receiver. -/
theorem jsGetProp_some_error (r : Json) (k : String) (u : Unit)
    (h : jsGetProp (some r) k = .error u) : r = .null := by
  cases r <;> simp [jsGetProp] at h <;> rfl

/-- C10 (amended): `toAuthSession` returns a session only when the
response's `success` is truthy, its `data` carries no
`result = "mfa_required"`, both `accessToken` and `refreshToken` are
present and truthy, and the accessToken's second dot-separated segment
`atob`-decodes to JSON with a truthy `sub` and a truthy string `email`;
in every returned session `user.id` is the payload's `sub`, `user.email`
the payload's `email` and `user.name` the part of the email before the
first `@`.  In every other case it returns `null`, except that a
`TypeError` escapes instead precisely when the parsed response is
`null` (the read of `apiResponse.success` throws) or `success` is
truthy but `data` is absent or not an object (`'result' in
apiResponse.data` throws). -/
theorem claim_C10_toAuthSession_amended :
    (∀ (r : Json) (s : AuthSession), toAuthSession r = .ok (some s) →
      jsTruthyOpt (jsGet r "success") = true ∧
      jsGetOptChain (jsGet r "data") "result" ≠ some (.str "mfa_required") ∧
      jsTruthyOpt (jsGetOptChain (jsGet r "data") "accessToken") = true ∧
      jsTruthyOpt (jsGetOptChain (jsGet r "data") "refreshToken") = true ∧
      jsGetOptChain (jsGet r "data") "accessToken" = some (.str s.token) ∧
      ∃ payloadJson payload,
        atob (((jsSplit s.token '.').get? 1).getD "undefined") =
          some payloadJson ∧
        jsonParse payloadJson = some payload ∧
        jsTruthyOpt (jsGet payload "sub") = true ∧
        jsGet payload "sub" = some s.userId ∧
        jsGet payload "email" = some (.str s.userEmail) ∧
        s.userEmail ≠ "" ∧
        s.userName = (jsSplit s.userEmail '@').headD "") ∧
    (∀ r : Json, toAuthSession r = .error () ↔
      (r = .null ∨
        (jsTruthyOpt (jsGet r "success") = true ∧
          jsObjLike (jsGet r "data") = false))) := by
  constructor
  · intro r s h
    unfold toAuthSession at h
    split at h
    · exact absurd h (by simp)
    rename_i successv heqS
    obtain ⟨hsv, hrn⟩ := jsGetProp_some_ok r "success" successv heqS
    subst hsv
    split at h
    · exact absurd h (by simp)
    rename_i hsucc
    split at h
    · exact absurd h (by simp)
    rename_i hasResult heqIn
    split at h
    · exact absurd h (by simp)
    rename_i hMfa
    split at h
    · exact absurd h (by simp)
    rename_i hasAT heqIn2
    split at h
    · exact absurd h (by simp)
    rename_i hHasAT
    split at h
    · exact absurd h (by simp)
    rename_i hTok
    split at h
    all_goals try (exfalso; simp at h; done)
    rename_i tok rt heqAT heqRT
    split at h
    all_goals try (exfalso; simp at h; done)
    rename_i payloadJson heqAtob
    split at h
    all_goals try (exfalso; simp at h; done)
    rename_i payload heqParse
    split at h
    · exact absurd h (by simp)
    rename_i hSubEmail
    split at h
    all_goals try (exfalso; simp at h; done)
    rename_i subv em heqSub heqEmail
    simp only [Except.ok.injEq, Option.some.injEq] at h
    subst h
    refine ⟨by simpa using hsucc, ?_, ?_, ?_, by simpa using heqAT,
      payloadJson, payload, heqAtob, heqParse, ?_, by simpa using heqSub,
      by simpa using heqEmail, ?_, rfl⟩
    · intro hcontra
      have hin := jsIn_ok_true_of_optChain _ _ _ hcontra
      rw [heqIn] at hin
      have hres : hasResult = true := by simpa using hin.symm
      subst hres
      rw [hcontra] at hMfa
      simp at hMfa
    · have := hTok
      simp [Bool.not_eq_false] at this
      exact this.1
    · have := hTok
      simp [Bool.not_eq_false] at this
      exact this.2
    · have := hSubEmail
      simp [Bool.not_eq_false] at this
      exact this.1
    · have := hSubEmail
      simp [Bool.not_eq_false] at this
      rw [heqEmail] at this
      simpa [jsTruthyOpt, jsTruthy] using this.2
  · intro r
    unfold toAuthSession
    split
    · rename_i u heqS
      have hrnull := jsGetProp_some_error r "success" u heqS
      simp [hrnull]
    · rename_i successv heqS
      obtain ⟨hsv, hrn⟩ := jsGetProp_some_ok r "success" successv heqS
      subst hsv
      split
      · rename_i hsucc
        have hx : jsTruthyOpt (jsGet r "success") = false := by
          simpa using hsucc
        simp [hx, hrn]
      · rename_i hsucc
        have hx : jsTruthyOpt (jsGet r "success") = true := by
          simpa using hsucc
        split
        · rename_i u2 heq
          have hobj : jsObjLike (jsGet r "data") = false :=
            (jsIn_error_iff "result" (jsGet r "data")).mp
              (by cases u2; exact heq)
          simp [hx, hobj]
        · rename_i hasResult heq
          have hobj : jsObjLike (jsGet r "data") = true := by
            by_contra hc
            rw [Bool.not_eq_true] at hc
            have := (jsIn_error_iff "result" (jsGet r "data")).mpr hc
            rw [heq] at this
            exact Except.noConfusion this
          constructor
          · intro hc
            split at hc
            · exact absurd hc (by simp)
            · split at hc
              · rename_i u2 heq2
                have := (jsIn_error_iff "accessToken" (jsGet r "data")).mp
                  (by cases u2; exact heq2)
                rw [hobj] at this
                exact Bool.noConfusion this
              · split at hc
                · exact absurd hc (by simp)
                · split at hc
                  · exact absurd hc (by simp)
                  · exact absurd hc (by simp)
          · rintro (hnull | ⟨_, hfalse⟩)
            · exact absurd hnull hrn
            · rw [hobj] at hfalse
              exact Bool.noConfusion hfalse

/-- Witness for the amended C10, applied to a concrete successful
response and to the two concrete throwing responses (truthy success
with missing data, and a null body). -/
theorem claim_C10_toAuthSession_amended_witness :
    toAuthSession sampleLoginResponse = .ok (some sampleSession) ∧
    jsTruthyOpt (jsGet sampleLoginResponse "success") = true ∧
    jsGetOptChain (jsGet sampleLoginResponse "data") "accessToken" =
      some (.str sampleSession.token) ∧
    (toAuthSession (.obj [("success", .bool true)]) = .error () ↔
      (Json.obj [("success", .bool true)] = .null ∨
        (jsTruthyOpt (jsGet (Json.obj [("success", .bool true)]) "success") =
            true ∧
          jsObjLike (jsGet (Json.obj [("success", .bool true)]) "data") =
            false))) ∧
    (toAuthSession .null = .error () ↔
      (Json.null = .null ∨
        (jsTruthyOpt (jsGet Json.null "success") = true ∧
          jsObjLike (jsGet Json.null "data") = false))) :=
  ⟨rfl,
   (claim_C10_toAuthSession_amended.1 sampleLoginResponse sampleSession rfl).1,
   (claim_C10_toAuthSession_amended.1 sampleLoginResponse sampleSession
     rfl).2.2.2.2.1,
   claim_C10_toAuthSession_amended.2 (.obj [("success", .bool true)]),
   claim_C10_toAuthSession_amended.2 .null⟩

/-- C6: `authService.logout` removes exactly the `auth_token` and
`refresh_token` keys from `localStorage` and leaves every other stored
key unchanged. -/
theorem claim_C6_logout_frame (store : String → Option String) :
    authService.logout store "auth_token" = none ∧
    authService.logout store "refresh_token" = none ∧
    ∀ k, k ≠ "auth_token" → k ≠ "refresh_token" →
      authService.logout store k = store k := by
  refine ⟨?_, ?_, ?_⟩
  · simp [authService.logout, authService.removeItem]
  · simp [authService.logout, authService.removeItem]
  · intro k h1 h2
    simp [authService.logout, authService.removeItem, h1, h2]

/-- Witness for C6 on a concrete store and an unrelated key. -/
theorem claim_C6_logout_frame_witness :
    ("theme" ≠ "auth_token" ∧ "theme" ≠ "refresh_token") ∧
    authService.logout (fun k => if k = "theme" then some "dark" else none)
        "theme" =
      (fun k => if k = "theme" then some "dark" else none) "theme" :=
  ⟨⟨by decide, by decide⟩,
   (claim_C6_logout_frame (fun k => if k = "theme" then some "dark" else none)
     ).2.2 "theme" (by decide) (by decide)⟩

/-- Every code point is below the Unicode bound. -/
theorem char_toNat_lt (c : Char) : c.toNat < 1114112 := by
  rcases c.valid with h | ⟨h1, h2⟩
  · exact Nat.lt_trans h (by norm_num)
  · exact h2

/-- UTF-8 encoding produces bytes. -/
theorem utf8Bytes_lt (c : Char) : ∀ b ∈ utf8Bytes c, b < 256 := by
  intro b hb
  have hlt : c.toNat < 1114112 := char_toNat_lt c
  unfold utf8Bytes at hb
  split_ifs at hb with h1 h2 h3 <;> simp at hb <;> omega

set_option maxRecDepth 4000 in
/-- Percent-escaping a byte never emits a query delimiter. -/
theorem encByte_safe :
    ∀ b, b < 256 → ∀ ch ∈ encByte b, ch ≠ '&' ∧ ch ≠ '=' ∧ ch ≠ '?' := by
  decide

/-- `encodeURIComponent` output never contains `&`, `=` or `?`: encoded
components cannot break the query structure of the authorization URL. -/
theorem encodeURIComponent_safe (s : String) :
    ∀ ch ∈ (encodeURIComponent s).data, ch ≠ '&' ∧ ch ≠ '=' ∧ ch ≠ '?' := by
  intro ch hch
  simp only [encodeURIComponent] at hch
  rw [List.mem_flatMap] at hch
  obtain ⟨b, hb, hchb⟩ := hch
  rw [List.mem_flatMap] at hb
  obtain ⟨c, hc, hbc⟩ := hb
  exact encByte_safe b (utf8Bytes_lt c b hbc) ch hchb

/-- `afterFirst` jumps over a prefix free of the separator. -/
theorem afterFirst_append_cons (c : Char) (a b : List Char) (h : c ∉ a) :
    afterFirst c (a ++ c :: b) = some b := by
  induction a with
  | nil => simp [afterFirst]
  | cons x xs ih =>
    simp only [List.mem_cons, not_or] at h
    simp only [List.cons_append, afterFirst, List.append_eq]
    rw [if_neg (fun he => h.1 he.symm), ih h.2]

/-- `splitCh` splits off a separator-free prefix. -/
theorem splitCh_append_cons (c : Char) (a b : List Char) (h : c ∉ a) :
    splitCh c (a ++ c :: b) = a :: splitCh c b := by
  induction a with
  | nil => simp [splitCh]
  | cons x xs ih =>
    simp only [List.mem_cons, not_or] at h
    simp only [List.cons_append, splitCh, List.append_eq]
    rw [if_neg (fun he => h.1 he.symm), ih h.2]

/-- The query of the Google authorization URL parses back: whatever the
encoded `client_id` and `redirect_uri` components are, as long as they
contain no `&`, `=` or `?`, `URLSearchParams` reads `state=google`. -/
theorem getQueryParam_google_state (ec er : String)
    (hec : ∀ ch ∈ ec.data, ch ≠ '&' ∧ ch ≠ '=' ∧ ch ≠ '?')
    (her : ∀ ch ∈ er.data, ch ≠ '&' ∧ ch ≠ '=' ∧ ch ≠ '?') :
    getQueryParam (googleAuthUrl ec er "google") "state" = some "google" := by
  have hecAmp : '&' ∉ ec.data := fun hm => (hec _ hm).1 rfl
  have herAmp : '&' ∉ er.data := fun hm => (her _ hm).1 rfl
  unfold getQueryParam queryPairs googleAuthUrl
  simp only [String.data_append, List.append_assoc, List.cons_append,
    List.singleton_append]
  simp [afterFirst, splitCh, splitCh_append_cons '&' ec.data _ hecAmp,
    splitCh_append_cons '&' er.data _ herAmp, breakAtFirst, formUrlDecode,
    percentDecodeBytes, utf8Decode, utf8DecodeAux, utf8Bytes, hexVal,
    String.mk]

/-- C5: the `state` parameter correlates initiation and callback: for
every supported provider (one whose lower-casing is `google`),
`buildOAuthUrl` without an explicit state embeds the URL-encoded
lowercased provider name as the `state` query parameter of the
authorization URL, and the callback page's provider selection
(`params.state`, defaulting to `google` when the state is absent)
recovers exactly that provider — the provider name round-trips. -/
theorem claim_C5_state_roundtrip (provider clientId redirectUri : String)
    (h₁ : provider ≠ "") (h₂ : clientId ≠ "") (h₃ : redirectUri ≠ "")
    (hg : jsToLower provider = "google") :
    ∃ url, buildOAuthUrl provider clientId redirectUri none = .ok url ∧
      url = googleAuthUrl (encodeURIComponent clientId)
        (encodeURIComponent redirectUri)
        (encodeURIComponent (jsToLower provider)) ∧
      getQueryParam url "state" = some "google" ∧
      strOrDefault (getQueryParam url "state") "google" =
        jsToLower provider := by
  refine ⟨googleAuthUrl (encodeURIComponent clientId)
    (encodeURIComponent redirectUri) (encodeURIComponent (jsToLower provider)),
    ?_, rfl, ?_, ?_⟩
  · unfold buildOAuthUrl
    rw [if_neg (by simp [h₁, h₂, h₃]), if_pos hg]
  · rw [hg, show encodeURIComponent "google" = "google" from rfl]
    exact getQueryParam_google_state _ _ (encodeURIComponent_safe clientId)
      (encodeURIComponent_safe redirectUri)
  · rw [hg, show encodeURIComponent "google" = "google" from rfl,
      getQueryParam_google_state _ _ (encodeURIComponent_safe clientId)
        (encodeURIComponent_safe redirectUri)]
    simp [strOrDefault, hg]

/-- Witness for C5 on `Google` with a realistic client id and redirect
URI. -/
theorem claim_C5_state_roundtrip_witness :
    jsToLower "Google" = "google" ∧
    ∃ url, buildOAuthUrl "Google" "1234-abc.apps.googleusercontent.com"
        "https://app.example/auth/callback" none = .ok url ∧
      url = googleAuthUrl
        (encodeURIComponent "1234-abc.apps.googleusercontent.com")
        (encodeURIComponent "https://app.example/auth/callback")
        (encodeURIComponent (jsToLower "Google")) ∧
      getQueryParam url "state" = some "google" ∧
      strOrDefault (getQueryParam url "state") "google" =
        jsToLower "Google" :=
  ⟨rfl, claim_C5_state_roundtrip "Google"
    "1234-abc.apps.googleusercontent.com"
    "https://app.example/auth/callback"
    (by decide) (by decide) (by decide) rfl⟩

/-- `authService.oauthLogin` resolves every result with
`mfaRequired = undefined`: no object literal in its source carries that
property (and the declared `OAuthLoginResult` interface has no such
field). -/
theorem oauthLogin_mfaRequired_none (env : Env) (request : OAuthLoginRequest) :
    (authService.oauthLogin env request).result.mfaRequired = none := by
  unfold authService.oauthLogin
  dsimp only
  repeat' split
  all_goals rfl

/-- C7: the OAuth callback page is a sequential protocol with only the
three states `loading`, `success` and `error` (the type of `status`):
the status history of a run always starts at `loading` and makes
exactly one transition, to one of the two terminal states — it never
moves from `success` to `error`, from `error` to `success`, or back to
`loading`. -/
theorem claim_C7_callback_status_protocol (cenv : CallbackEnv) :
    CallbackStatus.loading :: (oauthCallbackRun cenv).statusSets =
        [CallbackStatus.loading, CallbackStatus.success] ∨
      CallbackStatus.loading :: (oauthCallbackRun cenv).statusSets =
        [CallbackStatus.loading, CallbackStatus.error] := by
  unfold oauthCallbackRun
  dsimp only
  repeat' split
  all_goals simp_all [oauthLogin_mfaRequired_none, jsTruthyOpt]

/-- C4, the pipeline evaluated on a backend `mfa_required` answer to
the code exchange: `authService.oauthLogin` maps it to a plain failure
(`success = false`, never `mfaRequired`/`tempToken`), so the callback
page sets `status = 'error'`, stores nothing under `mfa_temp_token` and
never redirects to `/mfa/setup` or `/login/2fa` — the temp-token
handoff the page's own MFA branch implements is unreachable. -/
theorem claim_C4_mfa_handoff_dead :
    (authService.oauthLogin mfaCallbackEnv.net
        ⟨"google", "authcode-1", "https://app.example/auth/callback"⟩
      ).result.mfaRequired = none ∧
    (authService.oauthLogin mfaCallbackEnv.net
        ⟨"google", "authcode-1", "https://app.example/auth/callback"⟩
      ).result.success = false ∧
    (oauthCallbackRun mfaCallbackEnv).storedTempToken = none ∧
    (oauthCallbackRun mfaCallbackEnv).redirect = none ∧
    (oauthCallbackRun mfaCallbackEnv).statusSets = [CallbackStatus.error] ∧
    (oauthCallbackRun mfaCallbackEnv).errorMsg =
      some (.str "Respuesta del servidor inválida") :=
  ⟨rfl, rfl, rfl, rfl, rfl, rfl⟩

/-- Every request `authService.login` issues goes to the login endpoint
and carries the email together with the encrypted password. -/
theorem login_trace_spec (env : Env) (credentials : AuthCredentials) :
    ∀ req ∈ (authService.login env credentials).trace,
      req.url = API_URL ++ "/api/auth/login" ∧
      ∃ enc, env.encrypt credentials.password = some enc ∧
        req.body = some (.obj [("email", .str credentials.email),
          ("password", .str enc)]) := by
  intro req hreq
  unfold authService.login at hreq
  split at hreq
  · simp at hreq
  cases he : env.encrypt credentials.password with
  | none => rw [he] at hreq; simp at hreq
  | some enc =>
    rw [he] at hreq
    dsimp only at hreq
    have hr : req = authService.loginRequest credentials.email enc := by
      repeat' split at hreq
      all_goals simpa using hreq
    subst hr
    exact ⟨rfl, enc, rfl, rfl⟩

/-- `authService.login` issues at most one request. -/
theorem login_trace_length (env : Env) (credentials : AuthCredentials) :
    (authService.login env credentials).trace.length ≤ 1 := by
  unfold authService.login
  dsimp only
  repeat' split
  all_goals simp

/-- When a throw reaches `authService.login`'s catch-all handler, the
call resolves with the catch-all connection error. -/
theorem login_threw_spec (env : Env) (credentials : AuthCredentials)
    (h : (authService.login env credentials).threw = true) :
    (authService.login env credentials).result.success = false ∧
    (authService.login env credentials).result.error =
      some authService.connServerError := by
  unfold authService.login at h ⊢
  dsimp only at h ⊢
  repeat' split
  all_goals simp_all

/-- A trace of at most one request trivially repeats no URL. -/
theorem pairwise_of_short (l : List SRequest) (hl : l.length ≤ 1) :
    l.Pairwise (fun r1 r2 => r1.url ≠ r2.url) := by
  match l with
  | [] => exact List.Pairwise.nil
  | [a] => simp
  | a :: b :: t => simp at hl

/-- C3: for every credentials value with non-empty email and password,
`authService.login` sends the client-side RSA-encrypted form of the
password: every request it issues is a POST to `/api/auth/login` whose
body holds the email and `encryptPassword(credentials.password)`, and
(whenever encryption actually changes the password) the body's
`password` field is never the plaintext password. -/
theorem claim_C3_login_sends_encrypted (env : Env)
    (credentials : AuthCredentials)
    (h₁ : credentials.email ≠ "") (h₂ : credentials.password ≠ "") :
    ∀ req ∈ (authService.login env credentials).trace,
      req.url = API_URL ++ "/api/auth/login" ∧
      ∃ enc, env.encrypt credentials.password = some enc ∧
        req.body = some (.obj [("email", .str credentials.email),
          ("password", .str enc)]) ∧
        (enc ≠ credentials.password →
          jsGetOptChain req.body "password" ≠
            some (.str credentials.password)) := by
  intro req hreq
  obtain ⟨hurl, enc, henc, hbody⟩ := login_trace_spec env credentials req hreq
  refine ⟨hurl, enc, henc, hbody, ?_⟩
  intro hne hcontra
  rw [hbody] at hcontra
  simp [jsGetOptChain, jsGet] at hcontra
  exact hne hcontra

/-- Witness for C3: with network down, the one request issued carries
the encrypted password. -/
theorem claim_C3_login_sends_encrypted_witness :
    ("ana@bank.com" ≠ "" ∧ "pw1" ≠ "") ∧
    (authService.login envNetworkDown ⟨"ana@bank.com", "pw1"⟩).trace =
      [authService.loginRequest "ana@bank.com" "rsa:pw1"] ∧
    ∀ req ∈ (authService.login envNetworkDown ⟨"ana@bank.com", "pw1"⟩).trace,
      req.url = API_URL ++ "/api/auth/login" ∧
      ∃ enc, envNetworkDown.encrypt "pw1" = some enc ∧
        req.body = some (.obj [("email", .str "ana@bank.com"),
          ("password", .str enc)]) ∧
        (enc ≠ "pw1" →
          jsGetOptChain req.body "password" ≠ some (.str "pw1")) :=
  ⟨⟨by decide, by decide⟩, rfl,
   claim_C3_login_sends_encrypted envNetworkDown ⟨"ana@bank.com", "pw1"⟩
     (by decide) (by decide)⟩

/-- C1, counterexample to the claim as stated: a successful
`authService.register` performs two HTTP round trips (user creation,
then the automatic login), not a single one. -/
theorem claim_C1_counterexample :
    (authService.register envEmptyObjOk
      ⟨"ana@bank.com", "Secret1!", "Ana"⟩).trace.length = 2 ∧
    (2 : Nat) ≠ 1 :=
  ⟨rfl, by decide⟩

/-- C1 (amended): every async operation of the authentication services
is best-effort with no retry — `login`, `oauthLogin` and the three MFA
operations issue at most one HTTP request, while `register` issues at
most two (user creation, then the automatic login), never repeating a
URL — and whenever the request or response processing throws, the
operation resolves with `success = false` and its catch-all message
(`Error de conexión con el servidor` for the auth service, `Error de
conexión` for the MFA service) instead of propagating the exception. -/
theorem claim_C1_single_attempt_amended (env : Env) :
    (∀ credentials, (authService.login env credentials).trace.length ≤ 1 ∧
      ((authService.login env credentials).threw = true →
        (authService.login env credentials).result.success = false ∧
        (authService.login env credentials).result.error =
          some authService.connServerError)) ∧
    (∀ data, (authService.register env data).trace.length ≤ 2 ∧
      (authService.register env data).trace.Pairwise
        (fun r1 r2 => r1.url ≠ r2.url) ∧
      ((authService.register env data).threw = true →
        (authService.register env data).result.success = false ∧
        (authService.register env data).result.error =
          some authService.connServerError)) ∧
    (∀ request, (authService.oauthLogin env request).trace.length ≤ 1 ∧
      ((authService.oauthLogin env request).threw = true →
        (authService.oauthLogin env request).result.success = false ∧
        (authService.oauthLogin env request).result.error =
          some authService.connServerError)) ∧
    ((mfaService.initiateSetup env).trace.length = 1 ∧
      ((mfaService.initiateSetup env).threw = true →
        (mfaService.initiateSetup env).result.success = false ∧
        (mfaService.initiateSetup env).result.error =
          some mfaService.connError)) ∧
    (∀ code password, (mfaService.enable env code password).trace.length = 1 ∧
      ((mfaService.enable env code password).threw = true →
        (mfaService.enable env code password).result.success = false ∧
        (mfaService.enable env code password).result.error =
          some mfaService.connError)) ∧
    (∀ tempToken code,
      (mfaService.verifyLogin env tempToken code).trace.length = 1 ∧
      ((mfaService.verifyLogin env tempToken code).threw = true →
        (mfaService.verifyLogin env tempToken code).result.success = false ∧
        (mfaService.verifyLogin env tempToken code).result.error =
          some mfaService.connError)) := by
  refine ⟨fun credentials => ⟨login_trace_length env credentials,
      login_threw_spec env credentials⟩,
    fun data => ⟨?_, ?_, ?_⟩, fun request => ⟨?_, ?_⟩, ⟨?_, ?_⟩,
    fun code password => ⟨?_, ?_⟩, fun tempToken code => ⟨?_, ?_⟩⟩
  · -- register trace length ≤ 2
    unfold authService.register
    dsimp only
    repeat' split
    all_goals try (simp; done)
    simp only [List.length_cons]
    have hlt := login_trace_length env ⟨data.email, data.password⟩
    omega
  · -- register never repeats a URL
    unfold authService.register
    dsimp only
    repeat' split
    all_goals try simp
    constructor
    · intro r2 hr2
      have := (login_trace_spec env _ r2 hr2).1
      rw [this]
      simp [authService.registerRequest, API_URL]
    · exact pairwise_of_short _ (login_trace_length env _)
  · -- register propagates the nested catch-all
    intro h
    unfold authService.register at h ⊢
    dsimp only at h ⊢
    repeat' split at h
    all_goals try (simp_all; done)
    have hc := login_threw_spec env ⟨data.email, data.password⟩
      (by simpa using h)
    simp_all
  · -- oauthLogin trace length
    unfold authService.oauthLogin
    dsimp only
    repeat' split
    all_goals simp
  · -- oauthLogin catch-all
    intro h
    unfold authService.oauthLogin at h ⊢
    dsimp only at h ⊢
    repeat' split at h
    all_goals simp_all
  · -- initiateSetup trace length
    unfold mfaService.initiateSetup
    dsimp only
    repeat' split
    all_goals simp
  · -- initiateSetup catch-all
    intro h
    unfold mfaService.initiateSetup at h ⊢
    dsimp only at h ⊢
    repeat' split at h
    all_goals simp_all
  · -- enable trace length
    unfold mfaService.enable
    dsimp only
    repeat' split
    all_goals simp
  · -- enable catch-all
    intro h
    unfold mfaService.enable at h ⊢
    dsimp only at h ⊢
    repeat' split at h
    all_goals simp_all
  · -- verifyLogin trace length
    unfold mfaService.verifyLogin
    dsimp only
    repeat' split
    all_goals simp
  · -- verifyLogin catch-all
    intro h
    unfold mfaService.verifyLogin at h ⊢
    dsimp only at h ⊢
    repeat' split at h
    all_goals simp_all

/-- Witness for the amended C1: with the network down, login issues one
request and resolves with the catch-all error; a successful register
run issues its two requests. -/
theorem claim_C1_single_attempt_amended_witness :
    (authService.login envNetworkDown ⟨"ana@bank.com", "pw1"⟩).threw = true ∧
    ((authService.login envNetworkDown ⟨"ana@bank.com", "pw1"⟩
        ).result.success = false ∧
      (authService.login envNetworkDown ⟨"ana@bank.com", "pw1"⟩
        ).result.error = some authService.connServerError) ∧
    (authService.register envEmptyObjOk
      ⟨"ana@bank.com", "Secret1!", "Ana"⟩).trace.length ≤ 2 :=
  ⟨rfl,
   ((claim_C1_single_attempt_amended envNetworkDown).1
     ⟨"ana@bank.com", "pw1"⟩).2 rfl,
   ((claim_C1_single_attempt_amended envEmptyObjOk).2.1
     ⟨"ana@bank.com", "Secret1!", "Ana"⟩).1⟩

end Syntro
